import Mathlib

/-
Verification of the session lifecycle orchestrator (AgentManager) of the
ai-agent-manager repository.  The definitions below are a shallow embedding
of src/lib/agent-manager.ts: the in-memory session registry is an
association list, JS `Map.get/set/delete` become `findSession` /
`setSession` / `eraseSession`, emitted events are accumulated in a list,
thrown errors become `Except`, and monetary amounts (`cost_usd`) are
rationals.  Dates are abstracted as natural-number timestamps.
-/

namespace AgentMgr

/-- Session status values of AgentSession.status:
"active" | "paused" | "completed" | "error". -/
inductive SessionStatus
  | active
  | paused
  | completed
  | error
deriving DecidableEq, Repr

/-- TerminalMessage: one transcript entry stored in session.messages. -/
structure TerminalMessage where
  id : Nat
  msgType : String
  content : String
  timestamp : Nat
deriving DecidableEq, Repr

/-- AgentSession, the central entity of the registry (agent-manager.ts
creates it in createSession).  The transient `process` handle is modelled
separately in `MgrState.processes`. -/
structure Session where
  id : String
  name : String
  branch : String
  worktreePath : String
  status : SessionStatus
  progress : Nat
  needsIntervention : Bool
  claudeSessionId : Option String
  tokensUsed : Nat
  cost : Rat
  messages : List TerminalMessage
  createdAt : Nat
  updatedAt : Nat
  workspaceId : Option String
  projectId : Option String
  task : String
  archived : Bool
deriving DecidableEq, Repr

/-- One content block of an assistant/user message payload. -/
structure ContentBlock where
  blockType : String
  text : String
deriving DecidableEq, Repr

/-- message.message.content may be a plain string or an array of blocks. -/
inductive MsgContent
  | str (s : String)
  | blocks (bs : List ContentBlock)
deriving DecidableEq, Repr

/-- ClaudeMessage, the normalized runtime message (types/agent.ts).
`content` models `message.message?.content` (none for absent). -/
structure ClaudeMessage where
  msgType : String
  subtype : Option String
  content : Option MsgContent
  session_id : Option String
  cost_usd : Option Rat
  num_turns : Option Nat
  result : Option String
deriving DecidableEq, Repr

/-- Events emitted through the EventEmitter (`this.emit(...)`). -/
inductive AgentEvent
  | sessionInit (sessionId : String)
  | sessionMessage (sessionId : String)
  | sessionComplete (sessionId : String) (result : Option String)
  | sessionIntervention (sessionId : String) (reason : String)
  | sessionStatus (sessionId : String) (status : SessionStatus)
  | claudeMessage (sessionId : String)
  | sessionError (sessionId : String) (message : String)
deriving DecidableEq, Repr

/-- Errors thrown by lifecycle operations. -/
inductive AgentError
  | sessionNotFound
  | resumeStateError
  | worktreeMissing
  | provisioningError
deriving DecidableEq, Repr

/-- The session registry: `Map<string, AgentSession>` as an association
list in insertion order. -/
abbrev Registry := List (String × Session)

/-- Map.get. -/
def findSession : Registry → String → Option Session
  | [], _ => none
  | (k, s) :: rest, sid => if k = sid then some s else findSession rest sid

/-- Map.set: replace in place if the key exists, else append. -/
def setSession : Registry → String → Session → Registry
  | [], sid, s => [(sid, s)]
  | (k, v) :: rest, sid, s =>
      if k = sid then (sid, s) :: rest else (k, v) :: setSession rest sid s

/-- Map.delete. -/
def eraseSession : Registry → String → Registry
  | [], _ => []
  | (k, v) :: rest, sid => if k = sid then rest else (k, v) :: eraseSession rest sid

/-- The mutable state of an AgentManager instance: the session registry,
the log of emitted events, and the keys of the `processes` map (the live
AbortController handles themselves are external). -/
structure MgrState where
  registry : Registry
  events : List AgentEvent
  processes : List String
deriving DecidableEq, Repr

/-- JS truthiness of an optional string (`undefined` and "" are falsy). -/
def strTruthy : Option String → Bool
  | none => false
  | some s => !(s == "")

/-- Extraction of contentStr in handleClaudeMessage: a plain string is
taken as-is; an array keeps the text blocks joined by newlines. -/
def extractContent : Option MsgContent → String
  | none => ""
  | some (.str s) => s
  | some (.blocks bs) =>
      String.intercalate "\n"
        ((bs.filter (fun b => b.blockType = "text")).map (fun b => b.text))

/-- Assistant transcript truncation:
`contentStr.substring(0, 500) + (contentStr.length > 500 ? "..." : "")`. -/
def truncateAssistant (s : String) : String :=
  s.take 500 ++ (if s.length > 500 then "..." else "")

/-- `const content = message.result || "Task completed"`. -/
def resultContent : Option String → String
  | none => "Task completed"
  | some r => if r = "" then "Task completed" else r

/-- `if (message.session_id && !session.claudeSessionId)
session.claudeSessionId = message.session_id`. -/
def sessionWithClaudeId (s : Session) (msg : ClaudeMessage) : Session :=
  if strTruthy msg.session_id && !(strTruthy s.claudeSessionId) then
    { s with claudeSessionId := msg.session_id }
  else s

/-- Transcript storage portion of handleClaudeMessage: pushes a
TerminalMessage for assistant / user / result messages. -/
def sessionWithTranscript (s : Session) (msg : ClaudeMessage)
    (messageId now : Nat) : Session :=
  if msg.msgType = "assistant" then
    let contentStr := extractContent msg.content
    if contentStr = "" then s
    else { s with messages := s.messages ++
            [⟨messageId, "assistant", truncateAssistant contentStr, now⟩] }
  else if msg.msgType = "user" then
    let contentStr := extractContent msg.content
    if contentStr = "" then s
    else { s with messages := s.messages ++
            [⟨messageId, "user", contentStr, now⟩] }
  else if msg.msgType = "result" then
    { s with messages := s.messages ++
        [⟨messageId, "assistant", resultContent msg.result, now⟩] }
  else s

/-- Events emitted by the non-result arms of the switch in
handleClaudeMessage ("session:init" for system/init, "session:message"
for assistant and user messages). -/
def switchEvents (sessionId : String) (msg : ClaudeMessage) : List AgentEvent :=
  if msg.msgType = "system" then
    if msg.subtype = some "init" then [.sessionInit sessionId] else []
  else if msg.msgType = "assistant" ∨ msg.msgType = "user" then
    [.sessionMessage sessionId]
  else []

/-- `if (message.cost_usd) { session.cost += message.cost_usd }`
(a zero or absent cost_usd is falsy and adds nothing). -/
def costUpdate (s : Session) (msg : ClaudeMessage) : Session :=
  match msg.cost_usd with
  | some c => if c = 0 then s else { s with cost := s.cost + c }
  | none => s

/-- The "result" arm of the switch in handleClaudeMessage: accumulate
cost when cost_usd is truthy, then branch on the result subtype. -/
def resultEffects (sessionId : String) (s : Session) (msg : ClaudeMessage) :
    Session × List AgentEvent :=
  if msg.msgType = "result" then
    let s := costUpdate s msg
    if msg.subtype = some "success" then
      ({ s with progress := 100 }, [.sessionComplete sessionId msg.result])
    else if msg.subtype = some "error_max_turns" then
      ({ s with needsIntervention := true },
       [.sessionIntervention sessionId "Max turns reached"])
    else (s, [])
  else (s, [])

/-- The full per-session effect of handleClaudeMessage, in source order:
claudeSessionId capture, transcript push, switch arms, updatedAt refresh. -/
def applyMessageToSession (sessionId : String) (s : Session)
    (msg : ClaudeMessage) (messageId now : Nat) : Session × List AgentEvent :=
  let s1 := sessionWithClaudeId s msg
  let s2 := sessionWithTranscript s1 msg messageId now
  let p := resultEffects sessionId s2 msg
  ({ p.1 with updatedAt := now }, switchEvents sessionId msg ++ p.2)

/-- handleClaudeMessage: silently returns when the session is unknown;
otherwise updates the session and emits the switch events followed by the
raw "claude:message" event. -/
def handleClaudeMessage (st : MgrState) (sessionId : String)
    (msg : ClaudeMessage) (messageId now : Nat) : MgrState :=
  match findSession st.registry sessionId with
  | none => st
  | some session =>
    let p := applyMessageToSession sessionId session msg messageId now
    { st with
      registry := setSession st.registry sessionId p.1,
      events := st.events ++ p.2 ++ [.claudeMessage sessionId] }

/-- updateSessionStatus: no-op for an unknown session, else set status,
refresh updatedAt and emit a "session:status" event (the state save it
also triggers is external I/O). -/
def updateSessionStatus (st : MgrState) (sessionId : String)
    (status : SessionStatus) (now : Nat) : MgrState :=
  match findSession st.registry sessionId with
  | none => st
  | some session =>
    { st with
      registry := (setSession st.registry sessionId
        { session with status := status, updatedAt := now }),
      events := st.events ++ [.sessionStatus sessionId status] }

/-- One iteration of the `for await` loop in startClaudeProcess: the
pre-handling claudeSessionId capture, handleClaudeMessage, then
"completed" status for any result message. -/
def invocationStep (st : MgrState) (sessionId : String) (msg : ClaudeMessage)
    (messageId now : Nat) : MgrState :=
  let st1 :=
    match findSession st.registry sessionId with
    | none => st
    | some session =>
      if strTruthy msg.session_id && !(strTruthy session.claudeSessionId) then
        { st with registry := (setSession st.registry sessionId
            { session with claudeSessionId := msg.session_id }) }
      else st
  let st2 := handleClaudeMessage st1 sessionId msg messageId now
  if msg.msgType = "result" then updateSessionStatus st2 sessionId .completed now
  else st2

/-- The message loop of startClaudeProcess: consume messages until the
first result message (the loop breaks there). -/
def runInvocation (st : MgrState) (sessionId : String) :
    List (ClaudeMessage × Nat × Nat) → MgrState
  | [] => st
  | (msg, messageId, now) :: rest =>
    let st1 := invocationStep st sessionId msg messageId now
    if msg.msgType = "result" then st1 else runInvocation st1 sessionId rest

/-- One iteration of the `for await` loop in resumeSession (identical to
the startClaudeProcess loop body except for the pre-handling capture). -/
def resumeStep (st : MgrState) (sessionId : String) (msg : ClaudeMessage)
    (messageId now : Nat) : MgrState :=
  let st1 := handleClaudeMessage st sessionId msg messageId now
  if msg.msgType = "result" then updateSessionStatus st1 sessionId .completed now
  else st1

/-- The message loop of resumeSession. -/
def runResumeInvocation (st : MgrState) (sessionId : String) :
    List (ClaudeMessage × Nat × Nat) → MgrState
  | [] => st
  | (msg, messageId, now) :: rest =>
    let st1 := resumeStep st sessionId msg messageId now
    if msg.msgType = "result" then st1 else runResumeInvocation st1 sessionId rest

/-- startClaudeProcess: throws "Session not found" for an unknown id,
else registers the cancellation handle, runs the message loop and removes
the handle in the `finally` block.  The messages the runtime will yield
are a parameter of the embedding. -/
def startClaudeProcess (st : MgrState) (sessionId : String)
    (msgs : List (ClaudeMessage × Nat × Nat)) : Except AgentError MgrState :=
  match findSession st.registry sessionId with
  | none => .error .sessionNotFound
  | some _ =>
    let st1 := { st with processes := st.processes ++ [sessionId] }
    let st2 := runInvocation st1 sessionId msgs
    .ok { st2 with processes := st2.processes.erase sessionId }

/-- Inputs of createSession that the source draws from the environment:
the fresh uuid, the ISO date fragment, Date.now(), and the current
workspace/project ids. -/
structure CreateArgs where
  sessionId : String
  date : String
  nowMs : Nat
  name : Option String
  task : String
  workspaceId : Option String
  projectId : Option String
deriving DecidableEq, Repr

/-- The generated default session name:
`session-<ISO date>-<first 8 chars of the session id>`. -/
def defaultSessionName (date sessionId : String) : String :=
  "session-" ++ date ++ "-" ++ sessionId.take 8

/-- `name || defaultName` (an empty caller-supplied name is falsy). -/
def sessionNameOf (name : Option String) (date sessionId : String) : String :=
  match name with
  | none => defaultSessionName date sessionId
  | some n => if n = "" then defaultSessionName date sessionId else n

/-- replace(/\s+/g, "-"): collapse each maximal whitespace run to "-".
The Bool argument records whether the previous character was whitespace. -/
def collapseWsAux : Bool → List Char → List Char
  | _, [] => []
  | prevWs, c :: rest =>
    if c.isWhitespace then
      if prevWs then collapseWsAux true rest
      else '-' :: collapseWsAux true rest
    else c :: collapseWsAux false rest

/-- `sessionName.toLowerCase().replace(/\s+/g, "-")`. -/
def slugify (s : String) : String :=
  String.mk (collapseWsAux false s.toLower.data)

/-- The generated branch name `agent/<slug>-<Date.now()>`. -/
def branchNameOf (sessionName : String) (nowMs : Nat) : String :=
  "agent/" ++ slugify sessionName ++ "-" ++ toString nowMs

/-- The Session literal built in createSession. -/
def mkNewSession (args : CreateArgs) (worktreesPath : String) : Session :=
  let sessionName := sessionNameOf args.name args.date args.sessionId
  { id := args.sessionId
    name := sessionName
    branch := branchNameOf sessionName args.nowMs
    worktreePath := worktreesPath ++ "/" ++ args.sessionId
    status := .active
    progress := 0
    needsIntervention := false
    claudeSessionId := none
    tokensUsed := 0
    cost := 0
    messages := []
    createdAt := args.nowMs
    updatedAt := args.nowMs
    workspaceId := args.workspaceId
    projectId := args.projectId
    task := args.task
    archived := false }

/-- The registration phase of createSession: worktree provisioning, then
`this.sessions.set(sessionId, session)`.  A provisioning failure throws
"Failed to create worktree" before any session is registered. -/
def createSessionRegister (st : MgrState) (args : CreateArgs)
    (worktreesPath : String) (provisionOk : Bool) :
    Except AgentError (MgrState × Session) :=
  if provisionOk then
    let session := mkNewSession args worktreesPath
    .ok ({ st with registry := setSession st.registry args.sessionId session },
         session)
  else .error .provisioningError

/-- createSession: register first (aborting on provisioning failure),
then launch the runtime invocation via startClaudeProcess. -/
def createSession (st : MgrState) (args : CreateArgs) (worktreesPath : String)
    (provisionOk : Bool) (msgs : List (ClaudeMessage × Nat × Nat)) :
    Except AgentError MgrState :=
  match createSessionRegister st args worktreesPath provisionOk with
  | .error e => .error e
  | .ok (st1, _) => startClaudeProcess st1 args.sessionId msgs

/-- pauseSession: aborts and marks paused only when a live process handle
exists; otherwise it silently does nothing (it never throws). -/
def pauseSession (st : MgrState) (sessionId : String) (now : Nat) :
    Except AgentError MgrState :=
  if st.processes.contains sessionId then
    .ok (updateSessionStatus st sessionId .paused now)
  else .ok st

/-- stopSession: aborts any live process handle (external side effect)
and unconditionally calls updateSessionStatus(sessionId, "completed");
it never throws. -/
def stopSession (st : MgrState) (sessionId : String) (now : Nat) :
    Except AgentError MgrState :=
  .ok (updateSessionStatus st sessionId .completed now)

/-- resumeSession: throws "Session not found" for an unknown id, "No
Claude session ID to resume" when the continuation token is missing, and
a worktree error when the worktree is gone; otherwise registers a handle,
moves the session to "active" and runs the resume message loop. -/
def resumeSession (st : MgrState) (sessionId : String) (worktreeOk : Bool)
    (msgs : List (ClaudeMessage × Nat × Nat)) (now : Nat) :
    Except AgentError MgrState :=
  match findSession st.registry sessionId with
  | none => .error .sessionNotFound
  | some session =>
    if !(strTruthy session.claudeSessionId) then .error .resumeStateError
    else if !worktreeOk then .error .worktreeMissing
    else
      let st1 := { st with processes := st.processes ++ [sessionId] }
      let st2 := updateSessionStatus st1 sessionId .active now
      let st3 := runResumeInvocation st2 sessionId msgs
      .ok { st3 with processes := st3.processes.erase sessionId }

/-- archiveSession: throws "Session not found" for an unknown id, else
sets archived and refreshes updatedAt. -/
def archiveSession (st : MgrState) (sessionId : String) (now : Nat) :
    Except AgentError MgrState :=
  match findSession st.registry sessionId with
  | none => .error .sessionNotFound
  | some session =>
    .ok { st with registry := (setSession st.registry sessionId
            { session with archived := true, updatedAt := now }) }

/-- unarchiveSession: throws "Session not found" for an unknown id, else
clears archived and refreshes updatedAt. -/
def unarchiveSession (st : MgrState) (sessionId : String) (now : Nat) :
    Except AgentError MgrState :=
  match findSession st.registry sessionId with
  | none => .error .sessionNotFound
  | some session =>
    .ok { st with registry := (setSession st.registry sessionId
            { session with archived := false, updatedAt := now }) }

/-- deleteSession: throws "Session not found" for an unknown id, else
aborts any live handle, removes the worktree (external, best-effort) and
removes the session from the registry. -/
def deleteSession (st : MgrState) (sessionId : String) :
    Except AgentError MgrState :=
  match findSession st.registry sessionId with
  | none => .error .sessionNotFound
  | some _ =>
    .ok { st with
          registry := eraseSession st.registry sessionId,
          processes := st.processes.erase sessionId }

/-- The persisted snapshot: a timestamp plus the session records with the
map key written into the id field (`{ ...session, id }`); the transient
process handle is dropped. -/
structure SavedSnapshot where
  timestamp : Nat
  sessions : List Session
deriving DecidableEq, Repr

/-- saveState. -/
def saveState (st : MgrState) (now : Nat) : SavedSnapshot :=
  { timestamp := now
    sessions := st.registry.map (fun p => { p.2 with id := p.1 }) }

/-- The reconciliation rule of loadState:
`sessionData.status === "active" ? "paused" : sessionData.status`. -/
def reconcileStatus (s : SessionStatus) : SessionStatus :=
  if s = .active then .paused else s

/-- Per-record restoration performed by loadState: dates and messages are
revived verbatim, only an "active" status is rewritten to "paused". -/
def restoreSession (s : Session) : Session :=
  { s with status := reconcileStatus s.status }

/-- loadState: iterate the persisted records, restoring each into the
(initially empty) registry via `this.sessions.set(session.id, session)`. -/
def loadState (snapshot : SavedSnapshot) : Registry :=
  snapshot.sessions.foldl
    (fun reg s => setSession reg s.id (restoreSession s)) []

/-- The per-session mutation steps a session can experience after its
creation: invocation-loop iterations (fresh start or resume), the status
writes done by pause/stop/resume/error handling, archiving toggles and
deletion.  Each carries the id it targets. -/
inductive Op
  | invoke (target : String) (msg : ClaudeMessage) (messageId now : Nat)
  | resumeMsg (target : String) (msg : ClaudeMessage) (messageId now : Nat)
  | setStatus (target : String) (status : SessionStatus) (now : Nat)
  | archive (target : String) (now : Nat)
  | unarchive (target : String) (now : Nat)
  | delete (target : String)
deriving DecidableEq, Repr

/-- Apply one operation to the manager state (a thrown "Session not
found" leaves the state with the caller unchanged). -/
def applyOp (st : MgrState) : Op → MgrState
  | .invoke target msg messageId now => invocationStep st target msg messageId now
  | .resumeMsg target msg messageId now => resumeStep st target msg messageId now
  | .setStatus target status now => updateSessionStatus st target status now
  | .archive target now =>
    match archiveSession st target now with
    | .ok st1 => st1
    | .error _ => st
  | .unarchive target now =>
    match unarchiveSession st target now with
    | .ok st1 => st1
    | .error _ => st
  | .delete target =>
    match deleteSession st target with
    | .ok st1 => st1
    | .error _ => st

/-- Apply a sequence of operations. -/
def applyOps (st : MgrState) (ops : List Op) : MgrState :=
  ops.foldl applyOp st

/-- A runtime message carrying a non-negative cost (the external runtime
only ever reports non-negative costs). -/
def msgCostNonneg (msg : ClaudeMessage) : Prop :=
  match msg.cost_usd with
  | some c => 0 ≤ c
  | none => True

/-- An operation whose runtime message (if any) carries a non-negative
cost. -/
def opCostNonneg : Op → Prop
  | .invoke _ msg _ _ => msgCostNonneg msg
  | .resumeMsg _ msg _ _ => msgCostNonneg msg
  | _ => True

/-- An operation that handles a runtime result message for `sid`. -/
def opIsResultFor (sid : String) : Op → Prop
  | .invoke target msg _ _ => target = sid ∧ msg.msgType = "result"
  | .resumeMsg target msg _ _ => target = sid ∧ msg.msgType = "result"
  | _ => False

/-- A concrete active session used to evaluate the theorems. -/
def sampleSession : Session :=
  { id := "s1", name := "n", branch := "b", worktreePath := "w",
    status := .active, progress := 0, needsIntervention := false,
    claudeSessionId := some "c1", tokensUsed := 0, cost := 0, messages := [],
    createdAt := 0, updatedAt := 0, workspaceId := none, projectId := none,
    task := "t", archived := false }

/-- A concrete paused session that never received a runtime session id. -/
def pausedNoTokenSession : Session :=
  { sampleSession with id := "s2", status := .paused, claudeSessionId := none }

/-- A concrete manager state holding `sampleSession` with a live handle. -/
def sampleState : MgrState :=
  { registry := [("s1", sampleSession)], events := [], processes := ["s1"] }

/-- A concrete manager state holding `pausedNoTokenSession`. -/
def pausedState : MgrState :=
  { registry := [("s2", pausedNoTokenSession)], events := [], processes := [] }

/-- A manager state with no sessions at all. -/
def emptyState : MgrState := { registry := [], events := [], processes := [] }

/-- A concrete runtime result message of subtype "error_max_turns". -/
def maxTurnsMsg : ClaudeMessage :=
  { msgType := "result", subtype := some "error_max_turns", content := none,
    session_id := some "c1", cost_usd := none, num_turns := some 10,
    result := none }

/-- A concrete runtime result message of subtype "success" with
cost_usd = 0.02. -/
def successMsg : ClaudeMessage :=
  { msgType := "result", subtype := some "success", content := none,
    session_id := some "c1", cost_usd := some (2/100), num_turns := some 3,
    result := some "done" }

/-- Concrete createSession inputs with no caller-supplied name. -/
def sampleArgs : CreateArgs :=
  { sessionId := "abcdef12-3456", date := "2026-10-11", nowMs := 42,
    name := none, task := "do the thing", workspaceId := none,
    projectId := none }

/-- A concrete operation sequence over the sample session's lifetime:
pause, an invocation loop iteration with a success result, archive. -/
def sampleOps : List Op :=
  [.setStatus "s1" .paused 6, .invoke "s1" successMsg 2 7, .archive "s1" 8]

end AgentMgr

namespace AgentMgr

/-! Registry lemmas: behaviour of findSession under setSession and
eraseSession, and preservation of key distinctness. -/

theorem findSession_setSession_self (reg : Registry) (k : String) (v : Session) :
    findSession (setSession reg k v) k = some v := by
  induction reg with
  | nil => simp [setSession, findSession]
  | cons p rest ih =>
    obtain ⟨a, b⟩ := p
    by_cases ha : a = k
    · subst ha
      simp [setSession, findSession]
    · simp [setSession, findSession, ha, ih]

theorem findSession_setSession_ne (reg : Registry) (k k2 : String) (v : Session)
    (h : k ≠ k2) : findSession (setSession reg k v) k2 = findSession reg k2 := by
  induction reg with
  | nil => simp [setSession, findSession, h]
  | cons p rest ih =>
    obtain ⟨a, b⟩ := p
    by_cases ha : a = k
    · subst ha
      simp [setSession, findSession, h]
    · by_cases h2 : a = k2 <;>
        simp [setSession, findSession, ha, h2, Ne.symm h, ih]

theorem findSession_mem (reg : Registry) (k : String) (s : Session)
    (h : findSession reg k = some s) : (k, s) ∈ reg := by
  induction reg with
  | nil => simp [findSession] at h
  | cons p rest ih =>
    obtain ⟨a, b⟩ := p
    by_cases ha : a = k
    · subst ha
      simp [findSession] at h
      subst h
      exact List.mem_cons_self _ _
    · simp [findSession, ha] at h
      exact List.mem_cons_of_mem _ (ih h)

theorem findSession_eq_none (reg : Registry) (k : String)
    (h : k ∉ reg.map Prod.fst) : findSession reg k = none := by
  induction reg with
  | nil => rfl
  | cons p rest ih =>
    obtain ⟨a, b⟩ := p
    simp only [List.map_cons, List.mem_cons] at h
    push_neg at h
    have hak : a ≠ k := fun hh => h.1 hh.symm
    simp [findSession, hak, ih h.2]

theorem findSession_eraseSession_ne (reg : Registry) (k k2 : String)
    (h : k ≠ k2) : findSession (eraseSession reg k) k2 = findSession reg k2 := by
  induction reg with
  | nil => rfl
  | cons p rest ih =>
    obtain ⟨a, b⟩ := p
    by_cases ha : a = k
    · subst ha
      simp [eraseSession, findSession, h]
    · by_cases h2 : a = k2 <;>
        simp [eraseSession, findSession, ha, h2, Ne.symm h, ih]

theorem findSession_eraseSession_self (reg : Registry) (k : String)
    (hnd : (reg.map Prod.fst).Nodup) :
    findSession (eraseSession reg k) k = none := by
  induction reg with
  | nil => rfl
  | cons p rest ih =>
    obtain ⟨a, b⟩ := p
    simp only [List.map_cons, List.nodup_cons] at hnd
    by_cases ha : a = k
    · subst ha
      simp only [eraseSession, if_pos rfl]
      exact findSession_eq_none rest a hnd.1
    · simp [eraseSession, findSession, ha, ih hnd.2]

theorem findSession_eraseSession_of_none (reg : Registry) (k k2 : String)
    (h : findSession reg k = none) :
    findSession (eraseSession reg k2) k = none := by
  induction reg with
  | nil => rfl
  | cons p rest ih =>
    obtain ⟨a, b⟩ := p
    by_cases hak : a = k
    · subst hak
      simp [findSession] at h
    · simp only [findSession, if_neg hak] at h
      by_cases ha2 : a = k2
      · subst ha2
        simpa [eraseSession] using h
      · simp [eraseSession, findSession, ha2, hak, ih h]

theorem mem_keys_setSession (reg : Registry) (k x : String) (v : Session)
    (h : x ∈ (setSession reg k v).map Prod.fst) :
    x ∈ reg.map Prod.fst ∨ x = k := by
  induction reg with
  | nil =>
    simp only [setSession, List.map_cons, List.map_nil, List.mem_cons,
      List.not_mem_nil, or_false] at h
    exact Or.inr h
  | cons p rest ih =>
    obtain ⟨a, b⟩ := p
    by_cases ha : a = k
    · subst ha
      have hset : setSession ((a, b) :: rest) a v = (a, v) :: rest := by
        simp [setSession]
      rw [hset] at h
      simp only [List.map_cons, List.mem_cons] at h
      rcases h with h | h
      · exact Or.inr h
      · exact Or.inl (List.mem_cons_of_mem _ h)
    · have hset : setSession ((a, b) :: rest) k v =
          (a, b) :: setSession rest k v := by
        simp [setSession, ha]
      rw [hset] at h
      simp only [List.map_cons, List.mem_cons] at h
      rcases h with h | h
      · exact Or.inl (by simp [h])
      · rcases ih h with h' | h'
        · exact Or.inl (List.mem_cons_of_mem _ h')
        · exact Or.inr h'

theorem nodup_keys_setSession (reg : Registry) (k : String) (v : Session)
    (hnd : (reg.map Prod.fst).Nodup) :
    ((setSession reg k v).map Prod.fst).Nodup := by
  induction reg with
  | nil => simp [setSession]
  | cons p rest ih =>
    obtain ⟨a, b⟩ := p
    simp only [List.map_cons, List.nodup_cons] at hnd
    by_cases ha : a = k
    · subst ha
      simpa [setSession, List.nodup_cons] using hnd
    · simp only [setSession, if_neg ha, List.map_cons, List.nodup_cons]
      refine ⟨?_, ih hnd.2⟩
      intro hmem
      rcases mem_keys_setSession rest k a v hmem with h' | h'
      · exact hnd.1 h'
      · exact ha h'

theorem mem_keys_eraseSession (reg : Registry) (k x : String)
    (h : x ∈ (eraseSession reg k).map Prod.fst) : x ∈ reg.map Prod.fst := by
  induction reg with
  | nil => simp [eraseSession] at h
  | cons p rest ih =>
    obtain ⟨a, b⟩ := p
    by_cases ha : a = k
    · subst ha
      have herase : eraseSession ((a, b) :: rest) a = rest := by
        simp [eraseSession]
      rw [herase] at h
      exact List.mem_cons_of_mem _ h
    · have herase : eraseSession ((a, b) :: rest) k =
          (a, b) :: eraseSession rest k := by
        simp [eraseSession, ha]
      rw [herase] at h
      simp only [List.map_cons, List.mem_cons] at h
      rcases h with h | h
      · simp [h]
      · exact List.mem_cons_of_mem _ (ih h)

theorem nodup_keys_eraseSession (reg : Registry) (k : String)
    (hnd : (reg.map Prod.fst).Nodup) :
    ((eraseSession reg k).map Prod.fst).Nodup := by
  induction reg with
  | nil => simp [eraseSession]
  | cons p rest ih =>
    obtain ⟨a, b⟩ := p
    simp only [List.map_cons, List.nodup_cons] at hnd
    by_cases ha : a = k
    · subst ha
      simpa [eraseSession] using hnd.2
    · simp only [eraseSession, if_neg ha, List.map_cons, List.nodup_cons]
      exact ⟨fun hmem => hnd.1 (mem_keys_eraseSession rest k a hmem), ih hnd.2⟩

end AgentMgr

namespace AgentMgr

/-! Session-level lemmas: how the pieces of handleClaudeMessage act on
the individual fields of a session. -/

theorem sessionWithClaudeId_of_set (s : Session) (msg : ClaudeMessage)
    (v : String) (h : s.claudeSessionId = some v) (hv : v ≠ "") :
    sessionWithClaudeId s msg = s := by
  unfold sessionWithClaudeId
  rw [h]
  simp [strTruthy, hv]

theorem sessionWithClaudeId_idem (s : Session) (msg : ClaudeMessage) :
    sessionWithClaudeId (sessionWithClaudeId s msg) msg =
      sessionWithClaudeId s msg := by
  unfold sessionWithClaudeId
  by_cases h1 : (strTruthy msg.session_id && !(strTruthy s.claudeSessionId)) = true
  · rw [if_pos h1]
    have hm : strTruthy msg.session_id = true :=
      (Bool.and_eq_true _ _).mp h1 |>.1
    simp [hm]
  · rw [if_neg h1, if_neg h1]

theorem sessionWithClaudeId_cost (s : Session) (msg : ClaudeMessage) :
    (sessionWithClaudeId s msg).cost = s.cost := by
  unfold sessionWithClaudeId
  split_ifs <;> rfl

theorem sessionWithClaudeId_tokensUsed (s : Session) (msg : ClaudeMessage) :
    (sessionWithClaudeId s msg).tokensUsed = s.tokensUsed := by
  unfold sessionWithClaudeId
  split_ifs <;> rfl

theorem sessionWithTranscript_claudeSessionId (s : Session) (msg : ClaudeMessage)
    (messageId now : Nat) :
    (sessionWithTranscript s msg messageId now).claudeSessionId =
      s.claudeSessionId := by
  simp only [sessionWithTranscript]
  split_ifs <;> rfl

theorem sessionWithTranscript_cost (s : Session) (msg : ClaudeMessage)
    (messageId now : Nat) :
    (sessionWithTranscript s msg messageId now).cost = s.cost := by
  simp only [sessionWithTranscript]
  split_ifs <;> rfl

theorem sessionWithTranscript_tokensUsed (s : Session) (msg : ClaudeMessage)
    (messageId now : Nat) :
    (sessionWithTranscript s msg messageId now).tokensUsed = s.tokensUsed := by
  simp only [sessionWithTranscript]
  split_ifs <;> rfl

theorem costUpdate_claudeSessionId (s : Session) (msg : ClaudeMessage) :
    (costUpdate s msg).claudeSessionId = s.claudeSessionId := by
  unfold costUpdate
  cases msg.cost_usd with
  | none => rfl
  | some c => by_cases hc : c = 0 <;> simp [hc]

theorem costUpdate_tokensUsed (s : Session) (msg : ClaudeMessage) :
    (costUpdate s msg).tokensUsed = s.tokensUsed := by
  unfold costUpdate
  cases msg.cost_usd with
  | none => rfl
  | some c => by_cases hc : c = 0 <;> simp [hc]

theorem costUpdate_cost_mono (s : Session) (msg : ClaudeMessage)
    (h : msgCostNonneg msg) : s.cost ≤ (costUpdate s msg).cost := by
  unfold costUpdate
  unfold msgCostNonneg at h
  cases hc : msg.cost_usd with
  | none => exact le_refl _
  | some c =>
    rw [hc] at h
    by_cases hz : c = 0
    · simp [hz]
    · simp only [if_neg hz]
      exact le_add_of_nonneg_right h

theorem resultEffects_claudeSessionId (sid : String) (s : Session)
    (msg : ClaudeMessage) :
    (resultEffects sid s msg).1.claudeSessionId = s.claudeSessionId := by
  simp only [resultEffects]
  split_ifs <;> simp [costUpdate_claudeSessionId]

theorem resultEffects_tokensUsed (sid : String) (s : Session)
    (msg : ClaudeMessage) :
    (resultEffects sid s msg).1.tokensUsed = s.tokensUsed := by
  simp only [resultEffects]
  split_ifs <;> simp [costUpdate_tokensUsed]

theorem resultEffects_cost_mono (sid : String) (s : Session)
    (msg : ClaudeMessage) (h : msgCostNonneg msg) :
    s.cost ≤ (resultEffects sid s msg).1.cost := by
  simp only [resultEffects]
  split_ifs <;> simp [costUpdate_cost_mono s msg h]

theorem resultEffects_nonresult (sid : String) (s : Session)
    (msg : ClaudeMessage) (h : ¬ msg.msgType = "result") :
    resultEffects sid s msg = (s, []) := by
  simp only [resultEffects, if_neg h]

theorem applyMessageToSession_claudeSessionId_set (sid : String) (s : Session)
    (msg : ClaudeMessage) (messageId now : Nat) (v : String)
    (h : s.claudeSessionId = some v) (hv : v ≠ "") :
    (applyMessageToSession sid s msg messageId now).1.claudeSessionId =
      some v := by
  simp only [applyMessageToSession]
  rw [sessionWithClaudeId_of_set s msg v h hv]
  rw [resultEffects_claudeSessionId, sessionWithTranscript_claudeSessionId]
  exact h

theorem applyMessageToSession_tokensUsed (sid : String) (s : Session)
    (msg : ClaudeMessage) (messageId now : Nat) :
    (applyMessageToSession sid s msg messageId now).1.tokensUsed =
      s.tokensUsed := by
  simp only [applyMessageToSession]
  rw [resultEffects_tokensUsed, sessionWithTranscript_tokensUsed,
    sessionWithClaudeId_tokensUsed]

theorem applyMessageToSession_cost_mono (sid : String) (s : Session)
    (msg : ClaudeMessage) (messageId now : Nat) (h : msgCostNonneg msg) :
    s.cost ≤ (applyMessageToSession sid s msg messageId now).1.cost := by
  simp only [applyMessageToSession]
  have h1 := resultEffects_cost_mono sid
    (sessionWithTranscript (sessionWithClaudeId s msg) msg messageId now) msg h
  rw [sessionWithTranscript_cost, sessionWithClaudeId_cost] at h1
  exact h1

theorem applyMessageToSession_cost_nonresult (sid : String) (s : Session)
    (msg : ClaudeMessage) (messageId now : Nat)
    (h : ¬ msg.msgType = "result") :
    (applyMessageToSession sid s msg messageId now).1.cost = s.cost := by
  simp only [applyMessageToSession]
  rw [resultEffects_nonresult _ _ _ h]
  rw [sessionWithTranscript_cost, sessionWithClaudeId_cost]

end AgentMgr

namespace AgentMgr

/-! State-level lemmas: how handleClaudeMessage, updateSessionStatus and
the invocation-loop step act on the registry and the event log. -/

theorem handleClaudeMessage_find_self (st : MgrState) (sid : String)
    (s : Session) (msg : ClaudeMessage) (messageId now : Nat)
    (h : findSession st.registry sid = some s) :
    findSession (handleClaudeMessage st sid msg messageId now).registry sid =
      some (applyMessageToSession sid s msg messageId now).1 := by
  simp only [handleClaudeMessage, h]
  exact findSession_setSession_self _ _ _

theorem handleClaudeMessage_events (st : MgrState) (sid : String)
    (s : Session) (msg : ClaudeMessage) (messageId now : Nat)
    (h : findSession st.registry sid = some s) :
    (handleClaudeMessage st sid msg messageId now).events =
      st.events ++ (applyMessageToSession sid s msg messageId now).2 ++
        [.claudeMessage sid] := by
  simp only [handleClaudeMessage, h]

theorem handleClaudeMessage_find_other (st : MgrState) (sid k : String)
    (msg : ClaudeMessage) (messageId now : Nat) (hne : sid ≠ k) :
    findSession (handleClaudeMessage st sid msg messageId now).registry k =
      findSession st.registry k := by
  unfold handleClaudeMessage
  cases hf : findSession st.registry sid with
  | none => rfl
  | some s => exact findSession_setSession_ne _ _ _ _ hne

theorem handleClaudeMessage_find_none (st : MgrState) (sid : String)
    (msg : ClaudeMessage) (messageId now : Nat)
    (h : findSession st.registry sid = none) :
    handleClaudeMessage st sid msg messageId now = st := by
  simp only [handleClaudeMessage, h]

theorem updateSessionStatus_find_self (st : MgrState) (sid : String)
    (s : Session) (status : SessionStatus) (now : Nat)
    (h : findSession st.registry sid = some s) :
    findSession (updateSessionStatus st sid status now).registry sid =
      some { s with status := status, updatedAt := now } := by
  simp only [updateSessionStatus, h]
  exact findSession_setSession_self _ _ _

theorem updateSessionStatus_events (st : MgrState) (sid : String)
    (s : Session) (status : SessionStatus) (now : Nat)
    (h : findSession st.registry sid = some s) :
    (updateSessionStatus st sid status now).events =
      st.events ++ [.sessionStatus sid status] := by
  simp only [updateSessionStatus, h]

theorem updateSessionStatus_find_other (st : MgrState) (sid k : String)
    (status : SessionStatus) (now : Nat) (hne : sid ≠ k) :
    findSession (updateSessionStatus st sid status now).registry k =
      findSession st.registry k := by
  unfold updateSessionStatus
  cases hf : findSession st.registry sid with
  | none => rfl
  | some s => exact findSession_setSession_ne _ _ _ _ hne

theorem updateSessionStatus_find_none (st : MgrState) (sid : String)
    (status : SessionStatus) (now : Nat)
    (h : findSession st.registry sid = none) :
    updateSessionStatus st sid status now = st := by
  simp only [updateSessionStatus, h]

theorem invocationStep_pre (st : MgrState) (sid : String) (s : Session)
    (msg : ClaudeMessage) (messageId now : Nat)
    (h : findSession st.registry sid = some s) :
    ∃ stPre : MgrState,
      invocationStep st sid msg messageId now =
        (let st2 := handleClaudeMessage stPre sid msg messageId now
         if msg.msgType = "result" then
           updateSessionStatus st2 sid .completed now
         else st2) ∧
      findSession stPre.registry sid = some (sessionWithClaudeId s msg) ∧
      stPre.events = st.events ∧ stPre.processes = st.processes := by
  by_cases hg : (strTruthy msg.session_id && !(strTruthy s.claudeSessionId)) = true
  · refine ⟨{ st with registry := (setSession st.registry sid
        { s with claudeSessionId := msg.session_id }) }, ?_, ?_, rfl, rfl⟩
    · simp only [invocationStep, h, if_pos hg]
    · rw [findSession_setSession_self]
      unfold sessionWithClaudeId
      rw [if_pos hg]
  · refine ⟨st, ?_, ?_, rfl, rfl⟩
    · simp only [invocationStep, h, if_neg hg]
    · rw [h]
      unfold sessionWithClaudeId
      rw [if_neg hg]

end AgentMgr

namespace AgentMgr

theorem invocationStep_result (st : MgrState) (sid : String) (s : Session)
    (msg : ClaudeMessage) (messageId now : Nat)
    (h : findSession st.registry sid = some s)
    (htype : msg.msgType = "result") :
    findSession (invocationStep st sid msg messageId now).registry sid =
      some { (applyMessageToSession sid (sessionWithClaudeId s msg) msg
                messageId now).1 with status := .completed, updatedAt := now } ∧
    (invocationStep st sid msg messageId now).events =
      st.events ++ (applyMessageToSession sid (sessionWithClaudeId s msg) msg
          messageId now).2 ++ [.claudeMessage sid] ++
        [.sessionStatus sid .completed] := by
  obtain ⟨stPre, heq, hfind, hev, hproc⟩ :=
    invocationStep_pre st sid s msg messageId now h
  rw [heq]
  dsimp only
  rw [if_pos htype]
  have h1 := handleClaudeMessage_find_self stPre sid _ msg messageId now hfind
  have h2 := handleClaudeMessage_events stPre sid _ msg messageId now hfind
  constructor
  · rw [updateSessionStatus_find_self _ _ _ _ _ h1]
  · rw [updateSessionStatus_events _ _ _ _ _ h1, h2, hev]

theorem applyMessageToSession_maxTurns (sid : String) (s : Session)
    (msg : ClaudeMessage) (messageId now : Nat)
    (htype : msg.msgType = "result")
    (hsub : msg.subtype = some "error_max_turns") :
    (applyMessageToSession sid s msg messageId now).1.needsIntervention = true ∧
    (applyMessageToSession sid s msg messageId now).2 =
      [.sessionIntervention sid "Max turns reached"] := by
  constructor
  · simp [applyMessageToSession, resultEffects, htype, hsub]
  · simp [applyMessageToSession, switchEvents, resultEffects, htype, hsub]

theorem applyMessageToSession_success (sid : String) (s : Session)
    (msg : ClaudeMessage) (messageId now : Nat) (c : Rat)
    (htype : msg.msgType = "result") (hsub : msg.subtype = some "success")
    (hcost : msg.cost_usd = some c) (hc0 : c ≠ 0) :
    (applyMessageToSession sid s msg messageId now).1.progress = 100 ∧
    (applyMessageToSession sid s msg messageId now).1.cost = s.cost + c ∧
    (applyMessageToSession sid s msg messageId now).2 =
      [.sessionComplete sid msg.result] := by
  refine ⟨?_, ?_, ?_⟩
  · simp [applyMessageToSession, resultEffects, htype, hsub]
  · simp [applyMessageToSession, resultEffects, costUpdate, htype, hsub, hcost,
      hc0, sessionWithTranscript_cost, sessionWithClaudeId_cost]
  · simp [applyMessageToSession, switchEvents, resultEffects, htype, hsub]

end AgentMgr

namespace AgentMgr

/-- C1 counterexample: with a concrete active session holding an
in-flight invocation, one invocation-loop iteration that yields a result
message of subtype "error_max_turns" moves the session's status from
"active" to "completed" — the claim says the status is left unchanged. -/
theorem c1_counterexample :
    (findSession (invocationStep sampleState "s1" maxTurnsMsg 1 5).registry
        "s1").map Session.status = some .completed ∧
    (findSession sampleState.registry "s1").map Session.status =
      some .active := by
  constructor <;> rfl

/-- C1 (amended): when an in-flight invocation yields a result message of
subtype "error_max_turns", the handler sets needsIntervention and emits an
intervention event with reason "Max turns reached", but the invocation
loop then sets the session's status to "completed" (the status is not
left unchanged). -/
theorem c1_maxTurns_marks_completed (st : MgrState) (sid : String)
    (s : Session) (msg : ClaudeMessage) (messageId now : Nat)
    (hfind : findSession st.registry sid = some s)
    (htype : msg.msgType = "result")
    (hsub : msg.subtype = some "error_max_turns") :
    ∃ s', findSession (invocationStep st sid msg messageId now).registry sid =
        some s' ∧
      s'.needsIntervention = true ∧
      s'.status = .completed ∧
      AgentEvent.sessionIntervention sid "Max turns reached" ∈
        (invocationStep st sid msg messageId now).events := by
  obtain ⟨hrf, hre⟩ := invocationStep_result st sid s msg messageId now hfind htype
  refine ⟨_, hrf, ?_, rfl, ?_⟩
  · have h1 := (applyMessageToSession_maxTurns sid (sessionWithClaudeId s msg)
      msg messageId now htype hsub).1
    simpa using h1
  · rw [hre]
    rw [(applyMessageToSession_maxTurns sid (sessionWithClaudeId s msg)
      msg messageId now htype hsub).2]
    simp

/-- C1 witness: the amended theorem evaluated on the concrete state. -/
theorem c1_witness :
    ∃ s', findSession (invocationStep sampleState "s1" maxTurnsMsg 1 5).registry
        "s1" = some s' ∧
      s'.needsIntervention = true ∧
      s'.status = .completed ∧
      AgentEvent.sessionIntervention "s1" "Max turns reached" ∈
        (invocationStep sampleState "s1" maxTurnsMsg 1 5).events :=
  c1_maxTurns_marks_completed sampleState "s1" sampleSession maxTurnsMsg 1 5
    (by rfl) (by rfl) (by rfl)

/-- C5: when an in-flight invocation yields a result message of subtype
"success" carrying cost_usd = 0.02, the session ends the loop iteration
with status "completed", progress 100, its cost accumulator incremented
by exactly 0.02, and a completion event carrying the final result text is
emitted. -/
theorem c5_success_result (st : MgrState) (sid : String) (s : Session)
    (msg : ClaudeMessage) (messageId now : Nat)
    (hfind : findSession st.registry sid = some s)
    (htype : msg.msgType = "result") (hsub : msg.subtype = some "success")
    (hcost : msg.cost_usd = some (2/100 : Rat)) :
    ∃ s', findSession (invocationStep st sid msg messageId now).registry sid =
        some s' ∧
      s'.status = .completed ∧
      s'.progress = 100 ∧
      s'.cost = s.cost + 2/100 ∧
      AgentEvent.sessionComplete sid msg.result ∈
        (invocationStep st sid msg messageId now).events := by
  obtain ⟨hrf, hre⟩ := invocationStep_result st sid s msg messageId now hfind htype
  have hs := applyMessageToSession_success sid (sessionWithClaudeId s msg)
    msg messageId now (2/100) htype hsub hcost (by norm_num)
  refine ⟨_, hrf, rfl, ?_, ?_, ?_⟩
  · simpa using hs.1
  · have h2 := hs.2.1
    rw [sessionWithClaudeId_cost] at h2
    simpa using h2
  · rw [hre, hs.2.2]
    simp

/-- C5 witness: the theorem evaluated on the concrete state and the
concrete success message. -/
theorem c5_witness :
    ∃ s', findSession (invocationStep sampleState "s1" successMsg 1 5).registry
        "s1" = some s' ∧
      s'.status = .completed ∧
      s'.progress = 100 ∧
      s'.cost = sampleSession.cost + 2/100 ∧
      AgentEvent.sessionComplete "s1" successMsg.result ∈
        (invocationStep sampleState "s1" successMsg 1 5).events :=
  c5_success_result sampleState "s1" sampleSession successMsg 1 5
    (by rfl) (by rfl) (by rfl) (by rfl)

end AgentMgr

namespace AgentMgr

/-- C3 counterexample: stopSession invoked with an identifier absent from
the registry is not rejected with a not-found error — it returns
successfully (the claim says every lifecycle operation is rejected). -/
theorem c3_counterexample :
    findSession emptyState.registry "missing" = none ∧
    stopSession emptyState "missing" 0 = .ok emptyState := by
  constructor <;> rfl

/-- C3 (amended): for an identifier not present in the registry, resume,
archive, unarchive and delete are rejected with a not-found error, while
pause and stop complete without error as silent no-ops; in every case the
manager state is unchanged. -/
theorem c3_unknown_session (st : MgrState) (sid : String) (now : Nat)
    (worktreeOk : Bool) (msgs : List (ClaudeMessage × Nat × Nat))
    (h : findSession st.registry sid = none) :
    resumeSession st sid worktreeOk msgs now = .error .sessionNotFound ∧
    archiveSession st sid now = .error .sessionNotFound ∧
    unarchiveSession st sid now = .error .sessionNotFound ∧
    deleteSession st sid = .error .sessionNotFound ∧
    pauseSession st sid now = .ok st ∧
    stopSession st sid now = .ok st := by
  refine ⟨?_, ?_, ?_, ?_, ?_, ?_⟩
  · simp only [resumeSession, h]
  · simp only [archiveSession, h]
  · simp only [unarchiveSession, h]
  · simp only [deleteSession, h]
  · unfold pauseSession
    split_ifs
    · rw [updateSessionStatus_find_none _ _ _ _ h]
    · rfl
  · unfold stopSession
    rw [updateSessionStatus_find_none _ _ _ _ h]

/-- C3 witness: the amended theorem evaluated on the empty registry. -/
theorem c3_witness :
    resumeSession emptyState "x" true [] 0 = .error .sessionNotFound ∧
    archiveSession emptyState "x" 0 = .error .sessionNotFound ∧
    unarchiveSession emptyState "x" 0 = .error .sessionNotFound ∧
    deleteSession emptyState "x" = .error .sessionNotFound ∧
    pauseSession emptyState "x" 0 = .ok emptyState ∧
    stopSession emptyState "x" 0 = .ok emptyState :=
  c3_unknown_session emptyState "x" 0 true [] (by rfl)

/-- C6: resume on a registered session whose externalRuntimeSessionId
(claudeSessionId) is unset fails with the resume-state error ("No Claude
session ID to resume"); the error is thrown before any mutation, so in
this embedding no successor state is produced — the session (in
particular a "paused" status) is left exactly as it was and no invocation
is launched. -/
theorem c6_resume_without_token (st : MgrState) (sid : String) (s : Session)
    (worktreeOk : Bool) (msgs : List (ClaudeMessage × Nat × Nat)) (now : Nat)
    (hfind : findSession st.registry sid = some s)
    (hnone : s.claudeSessionId = none) :
    resumeSession st sid worktreeOk msgs now = .error .resumeStateError := by
  simp only [resumeSession, hfind, hnone]
  simp [strTruthy]

/-- C6 witness: resume on the concrete paused session without a runtime
session id. -/
theorem c6_witness :
    resumeSession pausedState "s2" true [] 7 = .error .resumeStateError :=
  c6_resume_without_token pausedState "s2" pausedNoTokenSession true [] 7
    (by rfl) (by rfl)

/-- C10: stopSession on any session present in the registry — whatever
its current status, paused and error included, and whether or not an
invocation is in flight — unconditionally sets its status to
"completed". -/
theorem c10_stop_any_session (st : MgrState) (sid : String) (s : Session)
    (now : Nat) (hfind : findSession st.registry sid = some s) :
    ∃ st', stopSession st sid now = .ok st' ∧
      findSession st'.registry sid =
        some { s with status := .completed, updatedAt := now } :=
  ⟨_, rfl, updateSessionStatus_find_self st sid s .completed now hfind⟩

/-- C10 witness: stopping the concrete paused session marks it
completed. -/
theorem c10_witness :
    ∃ st', stopSession pausedState "s2" 9 = .ok st' ∧
      findSession st'.registry "s2" =
        some { pausedNoTokenSession with
               status := .completed,
               updatedAt := 9 } :=
  c10_stop_any_session pausedState "s2" pausedNoTokenSession 9 (by rfl)

/-- C4: createSession aborts with a provisioning error when worktree
creation fails — the error is thrown before the session is inserted, so
no Session is registered (in this embedding no successor state is
produced) — and when provisioning succeeds, the session is registered
with status "active" in the intermediate state from which the runtime
invocation is then launched. -/
theorem c4_create_provisioning (st : MgrState) (args : CreateArgs)
    (wp : String) (msgs : List (ClaudeMessage × Nat × Nat)) :
    createSession st args wp false msgs = .error .provisioningError ∧
    ∃ st1 s, createSessionRegister st args wp true = .ok (st1, s) ∧
      findSession st1.registry args.sessionId = some s ∧
      s.status = .active ∧
      createSession st args wp true msgs =
        startClaudeProcess st1 args.sessionId msgs := by
  refine ⟨rfl, _, _, rfl, findSession_setSession_self _ _ _, rfl, rfl⟩

/-- C9: a createSession call without a caller-supplied name produces a
session named session-<date>-<first 8 chars of the id>, registered with
status "active" and an empty transcript. -/
theorem c9_default_name (st : MgrState) (args : CreateArgs) (wp : String)
    (hname : args.name = none) :
    ∃ st1 s, createSessionRegister st args wp true = .ok (st1, s) ∧
      s.name = "session-" ++ args.date ++ "-" ++ args.sessionId.take 8 ∧
      s.status = .active ∧
      s.messages = [] ∧
      findSession st1.registry args.sessionId = some s := by
  refine ⟨_, _, rfl, ?_, rfl, rfl, findSession_setSession_self _ _ _⟩
  simp [mkNewSession, sessionNameOf, defaultSessionName, hname]

/-- C9 witness: the theorem evaluated on concrete createSession inputs. -/
theorem c9_witness :
    ∃ st1 s, createSessionRegister emptyState sampleArgs "/repo/.worktrees"
        true = .ok (st1, s) ∧
      s.name = "session-" ++ sampleArgs.date ++ "-" ++
        sampleArgs.sessionId.take 8 ∧
      s.status = .active ∧
      s.messages = [] ∧
      findSession st1.registry sampleArgs.sessionId = some s :=
  c9_default_name emptyState sampleArgs "/repo/.worktrees" (by rfl)

end AgentMgr

namespace AgentMgr

/-! Lemmas about loadState's restoration fold. -/

theorem findSession_loadFold_absent (l : List Session) (reg : Registry)
    (k : String) (h : ∀ s ∈ l, s.id ≠ k) :
    findSession
      (l.foldl (fun r s => setSession r s.id (restoreSession s)) reg) k =
      findSession reg k := by
  induction l generalizing reg with
  | nil => rfl
  | cons a rest ih =>
    simp only [List.foldl_cons]
    rw [ih _ (fun s hs => h s (List.mem_cons_of_mem _ hs))]
    exact findSession_setSession_ne _ _ _ _ (h a (List.mem_cons_self _ _))

theorem findSession_loadFold_found (l : List Session) (k : String)
    (s : Session) (hid : s.id = k) :
    ∀ reg : Registry, s ∈ l → (l.map Session.id).Nodup →
      findSession
        (l.foldl (fun r s => setSession r s.id (restoreSession s)) reg) k =
        some (restoreSession s) := by
  induction l with
  | nil =>
    intro reg hmem _
    simp at hmem
  | cons a rest ih =>
    intro reg hmem hnd
    simp only [List.map_cons, List.nodup_cons] at hnd
    rcases List.mem_cons.mp hmem with heq | hmem2
    · subst heq
      simp only [List.foldl_cons]
      have habs : ∀ s2 ∈ rest, s2.id ≠ k := by
        intro s2 hs2 hs2k
        apply hnd.1
        rw [hid, ← hs2k]
        exact List.mem_map_of_mem Session.id hs2
      rw [findSession_loadFold_absent rest _ k habs]
      rw [← hid]
      exact findSession_setSession_self _ _ _
    · simp only [List.foldl_cons]
      exact ih _ hmem2 hnd.2

/-- C2: saving a snapshot and loading it back reproduces every field of
every registered session exactly, except that an "active" status is
rewritten to "paused"; all other statuses, the message transcript and the
runtime session id are restored verbatim.  The hypotheses state the
Map-invariants of the live registry: each entry is keyed by its session's
id and keys are distinct. -/
theorem c2_save_load_roundtrip (st : MgrState) (now : Nat)
    (hKeys : ∀ p ∈ st.registry, p.1 = p.2.id)
    (hNodup : (st.registry.map Prod.fst).Nodup)
    (k : String) (s : Session)
    (hfind : findSession st.registry k = some s) :
    ∃ s', findSession (loadState (saveState st now)) k = some s' ∧
      s'.status = (if s.status = .active then .paused else s.status) ∧
      s'.id = s.id ∧ s'.name = s.name ∧ s'.branch = s.branch ∧
      s'.worktreePath = s.worktreePath ∧ s'.progress = s.progress ∧
      s'.needsIntervention = s.needsIntervention ∧
      s'.claudeSessionId = s.claudeSessionId ∧
      s'.tokensUsed = s.tokensUsed ∧ s'.cost = s.cost ∧
      s'.messages = s.messages ∧ s'.createdAt = s.createdAt ∧
      s'.updatedAt = s.updatedAt ∧ s'.workspaceId = s.workspaceId ∧
      s'.projectId = s.projectId ∧ s'.task = s.task ∧
      s'.archived = s.archived := by
  have hmem : (k, s) ∈ st.registry := findSession_mem _ _ _ hfind
  have hkid : k = s.id := hKeys (k, s) hmem
  have hmem2 : ({ s with id := k } : Session) ∈ (saveState st now).sessions := by
    simp only [saveState]
    exact List.mem_map.mpr ⟨(k, s), hmem, rfl⟩
  have hndl : ((saveState st now).sessions.map Session.id).Nodup := by
    simp only [saveState]
    rw [List.map_map]
    have hcomp : (Session.id ∘ fun p : String × Session =>
        { p.2 with id := p.1 }) = Prod.fst := by
      funext p
      rfl
    rw [hcomp]
    exact hNodup
  have hfound := findSession_loadFold_found (saveState st now).sessions
    k { s with id := k } rfl [] hmem2 hndl
  refine ⟨restoreSession { s with id := k }, ?_, rfl, hkid, rfl, rfl,
    rfl, rfl, rfl, rfl, rfl, rfl, rfl, rfl, rfl, rfl, rfl, rfl, rfl⟩
  simp only [loadState]
  exact hfound

/-- C2 witness: the round-trip evaluated on the concrete one-session
state (an active session comes back paused, all other fields intact). -/
theorem c2_witness :
    ∃ s', findSession (loadState (saveState sampleState 3)) "s1" = some s' ∧
      s'.status =
        (if sampleSession.status = .active then .paused
         else sampleSession.status) ∧
      s'.id = sampleSession.id ∧ s'.name = sampleSession.name ∧
      s'.branch = sampleSession.branch ∧
      s'.worktreePath = sampleSession.worktreePath ∧
      s'.progress = sampleSession.progress ∧
      s'.needsIntervention = sampleSession.needsIntervention ∧
      s'.claudeSessionId = sampleSession.claudeSessionId ∧
      s'.tokensUsed = sampleSession.tokensUsed ∧
      s'.cost = sampleSession.cost ∧
      s'.messages = sampleSession.messages ∧
      s'.createdAt = sampleSession.createdAt ∧
      s'.updatedAt = sampleSession.updatedAt ∧
      s'.workspaceId = sampleSession.workspaceId ∧
      s'.projectId = sampleSession.projectId ∧
      s'.task = sampleSession.task ∧
      s'.archived = sampleSession.archived :=
  c2_save_load_roundtrip sampleState 3 (by decide) (by decide) "s1"
    sampleSession (by rfl)

end AgentMgr

namespace AgentMgr

/-! Lemmas for the lifetime invariants: how one operation moves the
registry entry of a watched session. -/

theorem resumeStep_find_self_any (st : MgrState) (sid : String) (s : Session)
    (msg : ClaudeMessage) (messageId now : Nat)
    (h : findSession st.registry sid = some s) :
    findSession (resumeStep st sid msg messageId now).registry sid =
      some (if msg.msgType = "result" then
        { (applyMessageToSession sid s msg messageId now).1 with
          status := .completed, updatedAt := now }
      else (applyMessageToSession sid s msg messageId now).1) := by
  unfold resumeStep
  dsimp only
  have h1 := handleClaudeMessage_find_self st sid s msg messageId now h
  by_cases hr : msg.msgType = "result"
  · rw [if_pos hr, if_pos hr]
    exact updateSessionStatus_find_self _ _ _ _ _ h1
  · rw [if_neg hr, if_neg hr]
    exact h1

theorem invocationStep_find_self_any (st : MgrState) (sid : String)
    (s : Session) (msg : ClaudeMessage) (messageId now : Nat)
    (h : findSession st.registry sid = some s) :
    findSession (invocationStep st sid msg messageId now).registry sid =
      some (if msg.msgType = "result" then
        { (applyMessageToSession sid (sessionWithClaudeId s msg) msg
            messageId now).1 with status := .completed, updatedAt := now }
      else (applyMessageToSession sid (sessionWithClaudeId s msg) msg
            messageId now).1) := by
  obtain ⟨stPre, heq, hfind, _, _⟩ :=
    invocationStep_pre st sid s msg messageId now h
  rw [heq]
  dsimp only
  have h1 := handleClaudeMessage_find_self stPre sid _ msg messageId now hfind
  by_cases hr : msg.msgType = "result"
  · rw [if_pos hr, if_pos hr]
    exact updateSessionStatus_find_self _ _ _ _ _ h1
  · rw [if_neg hr, if_neg hr]
    exact h1

theorem resumeStep_find_other (st : MgrState) (t k : String)
    (msg : ClaudeMessage) (messageId now : Nat) (hne : t ≠ k) :
    findSession (resumeStep st t msg messageId now).registry k =
      findSession st.registry k := by
  unfold resumeStep
  dsimp only
  by_cases hr : msg.msgType = "result"
  · rw [if_pos hr, updateSessionStatus_find_other _ _ _ _ _ hne,
      handleClaudeMessage_find_other _ _ _ _ _ _ hne]
  · rw [if_neg hr, handleClaudeMessage_find_other _ _ _ _ _ _ hne]

theorem invocationStep_find_other (st : MgrState) (t k : String)
    (msg : ClaudeMessage) (messageId now : Nat) (hne : t ≠ k) :
    findSession (invocationStep st t msg messageId now).registry k =
      findSession st.registry k := by
  unfold invocationStep
  cases hf : findSession st.registry t with
  | none =>
    simp only [hf]
    by_cases hr : msg.msgType = "result"
    · rw [if_pos hr, updateSessionStatus_find_other _ _ _ _ _ hne,
        handleClaudeMessage_find_other _ _ _ _ _ _ hne]
    · rw [if_neg hr, handleClaudeMessage_find_other _ _ _ _ _ _ hne]
  | some s =>
    simp only [hf]
    by_cases hg : (strTruthy msg.session_id &&
        !(strTruthy s.claudeSessionId)) = true
    · rw [if_pos hg]
      by_cases hr : msg.msgType = "result"
      · rw [if_pos hr, updateSessionStatus_find_other _ _ _ _ _ hne,
          handleClaudeMessage_find_other _ _ _ _ _ _ hne]
        exact findSession_setSession_ne _ _ _ _ hne
      · rw [if_neg hr, handleClaudeMessage_find_other _ _ _ _ _ _ hne]
        exact findSession_setSession_ne _ _ _ _ hne
    · rw [if_neg hg]
      by_cases hr : msg.msgType = "result"
      · rw [if_pos hr, updateSessionStatus_find_other _ _ _ _ _ hne,
          handleClaudeMessage_find_other _ _ _ _ _ _ hne]
      · rw [if_neg hr, handleClaudeMessage_find_other _ _ _ _ _ _ hne]

theorem applyOp_find_none (st : MgrState) (sid : String) (op : Op)
    (h : findSession st.registry sid = none) :
    findSession (applyOp st op).registry sid = none := by
  cases op with
  | invoke t msg messageId now =>
    by_cases ht : t = sid
    · subst ht
      show findSession (invocationStep st t msg messageId now).registry t = none
      unfold invocationStep
      simp only [h]
      rw [handleClaudeMessage_find_none _ _ _ _ _ h]
      by_cases hr : msg.msgType = "result"
      · rw [if_pos hr, updateSessionStatus_find_none _ _ _ _ h]
        exact h
      · rw [if_neg hr]
        exact h
    · show findSession (invocationStep st t msg messageId now).registry sid = none
      rw [invocationStep_find_other _ _ _ _ _ _ ht]
      exact h
  | resumeMsg t msg messageId now =>
    by_cases ht : t = sid
    · subst ht
      show findSession (resumeStep st t msg messageId now).registry t = none
      unfold resumeStep
      dsimp only
      rw [handleClaudeMessage_find_none _ _ _ _ _ h]
      by_cases hr : msg.msgType = "result"
      · rw [if_pos hr, updateSessionStatus_find_none _ _ _ _ h]
        exact h
      · rw [if_neg hr]
        exact h
    · show findSession (resumeStep st t msg messageId now).registry sid = none
      rw [resumeStep_find_other _ _ _ _ _ _ ht]
      exact h
  | setStatus t status now =>
    by_cases ht : t = sid
    · subst ht
      show findSession (updateSessionStatus st t status now).registry t = none
      rw [updateSessionStatus_find_none _ _ _ _ h]
      exact h
    · show findSession (updateSessionStatus st t status now).registry sid = none
      rw [updateSessionStatus_find_other _ _ _ _ _ ht]
      exact h
  | archive t now =>
    show findSession (match archiveSession st t now with
      | .ok st1 => st1 | .error _ => st).registry sid = none
    unfold archiveSession
    cases hf : findSession st.registry t with
    | none => exact h
    | some s =>
      by_cases ht : t = sid
      · subst ht
        rw [hf] at h
        cases h
      · dsimp only
        rw [findSession_setSession_ne _ _ _ _ ht]
        exact h
  | unarchive t now =>
    show findSession (match unarchiveSession st t now with
      | .ok st1 => st1 | .error _ => st).registry sid = none
    unfold unarchiveSession
    cases hf : findSession st.registry t with
    | none => exact h
    | some s =>
      by_cases ht : t = sid
      · subst ht
        rw [hf] at h
        cases h
      · dsimp only
        rw [findSession_setSession_ne _ _ _ _ ht]
        exact h
  | delete t =>
    show findSession (match deleteSession st t with
      | .ok st1 => st1 | .error _ => st).registry sid = none
    unfold deleteSession
    cases hf : findSession st.registry t with
    | none => exact h
    | some s =>
      dsimp only
      exact findSession_eraseSession_of_none _ _ _ h

end AgentMgr

namespace AgentMgr

theorem handleClaudeMessage_nodup (st : MgrState) (sid : String)
    (msg : ClaudeMessage) (messageId now : Nat)
    (hnd : (st.registry.map Prod.fst).Nodup) :
    ((handleClaudeMessage st sid msg messageId now).registry.map
      Prod.fst).Nodup := by
  unfold handleClaudeMessage
  cases hf : findSession st.registry sid with
  | none => exact hnd
  | some s => exact nodup_keys_setSession _ _ _ hnd

theorem updateSessionStatus_nodup (st : MgrState) (sid : String)
    (status : SessionStatus) (now : Nat)
    (hnd : (st.registry.map Prod.fst).Nodup) :
    ((updateSessionStatus st sid status now).registry.map Prod.fst).Nodup := by
  unfold updateSessionStatus
  cases hf : findSession st.registry sid with
  | none => exact hnd
  | some s => exact nodup_keys_setSession _ _ _ hnd

theorem resumeStep_nodup (st : MgrState) (sid : String) (msg : ClaudeMessage)
    (messageId now : Nat) (hnd : (st.registry.map Prod.fst).Nodup) :
    ((resumeStep st sid msg messageId now).registry.map Prod.fst).Nodup := by
  unfold resumeStep
  dsimp only
  by_cases hr : msg.msgType = "result"
  · rw [if_pos hr]
    exact updateSessionStatus_nodup _ _ _ _
      (handleClaudeMessage_nodup _ _ _ _ _ hnd)
  · rw [if_neg hr]
    exact handleClaudeMessage_nodup _ _ _ _ _ hnd

theorem invocationStep_nodup (st : MgrState) (sid : String)
    (msg : ClaudeMessage) (messageId now : Nat)
    (hnd : (st.registry.map Prod.fst).Nodup) :
    ((invocationStep st sid msg messageId now).registry.map Prod.fst).Nodup := by
  unfold invocationStep
  cases hf : findSession st.registry sid with
  | none =>
    simp only [hf]
    by_cases hr : msg.msgType = "result"
    · rw [if_pos hr]
      exact updateSessionStatus_nodup _ _ _ _
        (handleClaudeMessage_nodup _ _ _ _ _ hnd)
    · rw [if_neg hr]
      exact handleClaudeMessage_nodup _ _ _ _ _ hnd
  | some s =>
    simp only [hf]
    by_cases hg : (strTruthy msg.session_id &&
        !(strTruthy s.claudeSessionId)) = true
    · rw [if_pos hg]
      have hnd1 : ((setSession st.registry sid
          { s with claudeSessionId := msg.session_id }).map Prod.fst).Nodup :=
        nodup_keys_setSession _ _ _ hnd
      by_cases hr : msg.msgType = "result"
      · rw [if_pos hr]
        exact updateSessionStatus_nodup _ _ _ _
          (handleClaudeMessage_nodup _ _ _ _ _ hnd1)
      · rw [if_neg hr]
        exact handleClaudeMessage_nodup _ _ _ _ _ hnd1
    · rw [if_neg hg]
      by_cases hr : msg.msgType = "result"
      · rw [if_pos hr]
        exact updateSessionStatus_nodup _ _ _ _
          (handleClaudeMessage_nodup _ _ _ _ _ hnd)
      · rw [if_neg hr]
        exact handleClaudeMessage_nodup _ _ _ _ _ hnd

theorem applyOp_nodup (st : MgrState) (op : Op)
    (hnd : (st.registry.map Prod.fst).Nodup) :
    ((applyOp st op).registry.map Prod.fst).Nodup := by
  cases op with
  | invoke t msg messageId now => exact invocationStep_nodup _ _ _ _ _ hnd
  | resumeMsg t msg messageId now => exact resumeStep_nodup _ _ _ _ _ hnd
  | setStatus t status now => exact updateSessionStatus_nodup _ _ _ _ hnd
  | archive t now =>
    show ((match archiveSession st t now with
      | .ok st1 => st1 | .error _ => st).registry.map Prod.fst).Nodup
    unfold archiveSession
    cases hf : findSession st.registry t with
    | none => exact hnd
    | some s => exact nodup_keys_setSession _ _ _ hnd
  | unarchive t now =>
    show ((match unarchiveSession st t now with
      | .ok st1 => st1 | .error _ => st).registry.map Prod.fst).Nodup
    unfold unarchiveSession
    cases hf : findSession st.registry t with
    | none => exact hnd
    | some s => exact nodup_keys_setSession _ _ _ hnd
  | delete t =>
    show ((match deleteSession st t with
      | .ok st1 => st1 | .error _ => st).registry.map Prod.fst).Nodup
    unfold deleteSession
    cases hf : findSession st.registry t with
    | none => exact hnd
    | some s => exact nodup_keys_eraseSession _ _ hnd

end AgentMgr

namespace AgentMgr

theorem applyOp_claudeSessionId (st : MgrState) (sid v : String) (op : Op)
    (hv : v ≠ "") (hnd : (st.registry.map Prod.fst).Nodup)
    (hinv : ∀ s0, findSession st.registry sid = some s0 →
      s0.claudeSessionId = some v) :
    ∀ s', findSession (applyOp st op).registry sid = some s' →
      s'.claudeSessionId = some v := by
  intro s' h'
  cases op with
  | invoke t msg messageId now =>
    simp only [applyOp] at h'
    by_cases ht : t = sid
    · subst ht
      cases hf : findSession st.registry t with
      | none =>
        rw [show invocationStep st t msg messageId now =
            applyOp st (.invoke t msg messageId now) from rfl] at h'
        rw [applyOp_find_none st t (.invoke t msg messageId now) hf] at h'
        cases h'
      | some s0 =>
        have hs0 := hinv s0 hf
        have hwc : sessionWithClaudeId s0 msg = s0 :=
          sessionWithClaudeId_of_set s0 msg v hs0 hv
        have hself := invocationStep_find_self_any st t s0 msg messageId now hf
        rw [hwc] at hself
        rw [hself] at h'
        injection h' with h''
        subst h''
        by_cases hr : msg.msgType = "result"
        · rw [if_pos hr]
          exact applyMessageToSession_claudeSessionId_set t s0 msg messageId
            now v hs0 hv
        · rw [if_neg hr]
          exact applyMessageToSession_claudeSessionId_set t s0 msg messageId
            now v hs0 hv
    · rw [invocationStep_find_other st t sid msg messageId now ht] at h'
      exact hinv s' h'
  | resumeMsg t msg messageId now =>
    simp only [applyOp] at h'
    by_cases ht : t = sid
    · subst ht
      cases hf : findSession st.registry t with
      | none =>
        rw [show resumeStep st t msg messageId now =
            applyOp st (.resumeMsg t msg messageId now) from rfl] at h'
        rw [applyOp_find_none st t (.resumeMsg t msg messageId now) hf] at h'
        cases h'
      | some s0 =>
        have hs0 := hinv s0 hf
        have hself := resumeStep_find_self_any st t s0 msg messageId now hf
        rw [hself] at h'
        injection h' with h''
        subst h''
        by_cases hr : msg.msgType = "result"
        · rw [if_pos hr]
          exact applyMessageToSession_claudeSessionId_set t s0 msg messageId
            now v hs0 hv
        · rw [if_neg hr]
          exact applyMessageToSession_claudeSessionId_set t s0 msg messageId
            now v hs0 hv
    · rw [resumeStep_find_other st t sid msg messageId now ht] at h'
      exact hinv s' h'
  | setStatus t status now =>
    simp only [applyOp] at h'
    by_cases ht : t = sid
    · subst ht
      cases hf : findSession st.registry t with
      | none =>
        rw [updateSessionStatus_find_none _ _ _ _ hf] at h'
        rw [hf] at h'
        cases h'
      | some s0 =>
        rw [updateSessionStatus_find_self _ _ _ _ _ hf] at h'
        injection h' with h''
        subst h''
        exact hinv s0 hf
    · rw [updateSessionStatus_find_other _ _ _ _ _ ht] at h'
      exact hinv s' h'
  | archive t now =>
    simp only [applyOp] at h'
    revert h'
    unfold archiveSession
    cases hf : findSession st.registry t with
    | none =>
      intro h'
      exact hinv s' h'
    | some s0 =>
      intro h'
      dsimp only at h'
      by_cases ht : t = sid
      · subst ht
        rw [findSession_setSession_self] at h'
        injection h' with h''
        subst h''
        exact hinv s0 hf
      · rw [findSession_setSession_ne _ _ _ _ ht] at h'
        exact hinv s' h'
  | unarchive t now =>
    simp only [applyOp] at h'
    revert h'
    unfold unarchiveSession
    cases hf : findSession st.registry t with
    | none =>
      intro h'
      exact hinv s' h'
    | some s0 =>
      intro h'
      dsimp only at h'
      by_cases ht : t = sid
      · subst ht
        rw [findSession_setSession_self] at h'
        injection h' with h''
        subst h''
        exact hinv s0 hf
      · rw [findSession_setSession_ne _ _ _ _ ht] at h'
        exact hinv s' h'
  | delete t =>
    simp only [applyOp] at h'
    revert h'
    unfold deleteSession
    cases hf : findSession st.registry t with
    | none =>
      intro h'
      exact hinv s' h'
    | some s0 =>
      intro h'
      dsimp only at h'
      by_cases ht : t = sid
      · subst ht
        rw [findSession_eraseSession_self _ _ hnd] at h'
        cases h'
      · rw [findSession_eraseSession_ne _ _ _ ht] at h'
        exact hinv s' h'

end AgentMgr

namespace AgentMgr

theorem applyOp_cost (st : MgrState) (sid : String) (op : Op) (s : Session)
    (hnd : (st.registry.map Prod.fst).Nodup)
    (hfind : findSession st.registry sid = some s)
    (hc : opCostNonneg op) :
    ∀ s', findSession (applyOp st op).registry sid = some s' →
      s.cost ≤ s'.cost ∧ s'.tokensUsed = s.tokensUsed ∧
      (¬ opIsResultFor sid op → s'.cost = s.cost) := by
  intro s' h'
  cases op with
  | invoke t msg messageId now =>
    simp only [applyOp] at h'
    by_cases ht : t = sid
    · subst ht
      have hself := invocationStep_find_self_any st t s msg messageId now hfind
      rw [hself] at h'
      injection h' with h''
      subst h''
      have hmono := applyMessageToSession_cost_mono t
        (sessionWithClaudeId s msg) msg messageId now hc
      rw [sessionWithClaudeId_cost] at hmono
      have htok := applyMessageToSession_tokensUsed t
        (sessionWithClaudeId s msg) msg messageId now
      rw [sessionWithClaudeId_tokensUsed] at htok
      by_cases hr : msg.msgType = "result"
      · rw [if_pos hr]
        refine ⟨hmono, htok, ?_⟩
        intro hno
        exact absurd ⟨rfl, hr⟩ hno
      · rw [if_neg hr]
        have hceq := applyMessageToSession_cost_nonresult t
          (sessionWithClaudeId s msg) msg messageId now hr
        rw [sessionWithClaudeId_cost] at hceq
        exact ⟨le_of_eq hceq.symm, htok, fun _ => hceq⟩
    · rw [invocationStep_find_other st t sid msg messageId now ht] at h'
      rw [hfind] at h'
      injection h' with h''
      subst h''
      exact ⟨le_refl _, rfl, fun _ => rfl⟩
  | resumeMsg t msg messageId now =>
    simp only [applyOp] at h'
    by_cases ht : t = sid
    · subst ht
      have hself := resumeStep_find_self_any st t s msg messageId now hfind
      rw [hself] at h'
      injection h' with h''
      subst h''
      have hmono := applyMessageToSession_cost_mono t s msg messageId now hc
      have htok := applyMessageToSession_tokensUsed t s msg messageId now
      by_cases hr : msg.msgType = "result"
      · rw [if_pos hr]
        refine ⟨hmono, htok, ?_⟩
        intro hno
        exact absurd ⟨rfl, hr⟩ hno
      · rw [if_neg hr]
        have hceq := applyMessageToSession_cost_nonresult t s msg messageId
          now hr
        exact ⟨le_of_eq hceq.symm, htok, fun _ => hceq⟩
    · rw [resumeStep_find_other st t sid msg messageId now ht] at h'
      rw [hfind] at h'
      injection h' with h''
      subst h''
      exact ⟨le_refl _, rfl, fun _ => rfl⟩
  | setStatus t status now =>
    simp only [applyOp] at h'
    by_cases ht : t = sid
    · subst ht
      rw [updateSessionStatus_find_self _ _ _ _ _ hfind] at h'
      injection h' with h''
      subst h''
      exact ⟨le_refl _, rfl, fun _ => rfl⟩
    · rw [updateSessionStatus_find_other _ _ _ _ _ ht] at h'
      rw [hfind] at h'
      injection h' with h''
      subst h''
      exact ⟨le_refl _, rfl, fun _ => rfl⟩
  | archive t now =>
    simp only [applyOp] at h'
    revert h'
    unfold archiveSession
    cases hf : findSession st.registry t with
    | none =>
      intro h'
      rw [hfind] at h'
      injection h' with h''
      subst h''
      exact ⟨le_refl _, rfl, fun _ => rfl⟩
    | some s0 =>
      intro h'
      dsimp only at h'
      by_cases ht : t = sid
      · subst ht
        rw [hfind] at hf
        injection hf with hf'
        subst hf'
        rw [findSession_setSession_self] at h'
        injection h' with h''
        subst h''
        exact ⟨le_refl _, rfl, fun _ => rfl⟩
      · rw [findSession_setSession_ne _ _ _ _ ht] at h'
        rw [hfind] at h'
        injection h' with h''
        subst h''
        exact ⟨le_refl _, rfl, fun _ => rfl⟩
  | unarchive t now =>
    simp only [applyOp] at h'
    revert h'
    unfold unarchiveSession
    cases hf : findSession st.registry t with
    | none =>
      intro h'
      rw [hfind] at h'
      injection h' with h''
      subst h''
      exact ⟨le_refl _, rfl, fun _ => rfl⟩
    | some s0 =>
      intro h'
      dsimp only at h'
      by_cases ht : t = sid
      · subst ht
        rw [hfind] at hf
        injection hf with hf'
        subst hf'
        rw [findSession_setSession_self] at h'
        injection h' with h''
        subst h''
        exact ⟨le_refl _, rfl, fun _ => rfl⟩
      · rw [findSession_setSession_ne _ _ _ _ ht] at h'
        rw [hfind] at h'
        injection h' with h''
        subst h''
        exact ⟨le_refl _, rfl, fun _ => rfl⟩
  | delete t =>
    simp only [applyOp] at h'
    revert h'
    unfold deleteSession
    cases hf : findSession st.registry t with
    | none =>
      intro h'
      rw [hfind] at h'
      injection h' with h''
      subst h''
      exact ⟨le_refl _, rfl, fun _ => rfl⟩
    | some s0 =>
      intro h'
      dsimp only at h'
      by_cases ht : t = sid
      · subst ht
        rw [findSession_eraseSession_self _ _ hnd] at h'
        cases h'
      · rw [findSession_eraseSession_ne _ _ _ ht] at h'
        rw [hfind] at h'
        injection h' with h''
        subst h''
        exact ⟨le_refl _, rfl, fun _ => rfl⟩

end AgentMgr

namespace AgentMgr

theorem applyOps_find_none (st : MgrState) (sid : String) (ops : List Op)
    (h : findSession st.registry sid = none) :
    findSession (List.foldl applyOp st ops).registry sid = none := by
  induction ops generalizing st with
  | nil => exact h
  | cons op rest ih =>
    simp only [List.foldl_cons]
    exact ih _ (applyOp_find_none st sid op h)

/-- C7: externalRuntimeSessionId (claudeSessionId) is write-once — once a
session holds some non-empty runtime session id, no later handled runtime
message and no lifecycle operation (on this or any other session) ever
changes it to a different value; it can only disappear with the session
itself on delete.  The nodup hypothesis is the Map invariant of the
registry's keys. -/
theorem c7_claudeSessionId_write_once (ops : List Op) (st : MgrState)
    (sid v : String) (s : Session) (hv : v ≠ "")
    (hnd : (st.registry.map Prod.fst).Nodup)
    (hfind : findSession st.registry sid = some s)
    (hset : s.claudeSessionId = some v) :
    ∀ s', findSession (applyOps st ops).registry sid = some s' →
      s'.claudeSessionId = some v := by
  have key : ∀ (l : List Op) (st0 : MgrState),
      (st0.registry.map Prod.fst).Nodup →
      (∀ s0, findSession st0.registry sid = some s0 →
        s0.claudeSessionId = some v) →
      ∀ s', findSession (List.foldl applyOp st0 l).registry sid = some s' →
        s'.claudeSessionId = some v := by
    intro l
    induction l with
    | nil =>
      intro st0 _ hinv s' h'
      exact hinv s' h'
    | cons op rest ih =>
      intro st0 hnd0 hinv s' h'
      simp only [List.foldl_cons] at h'
      exact ih (applyOp st0 op) (applyOp_nodup st0 op hnd0)
        (applyOp_claudeSessionId st0 sid v op hv hnd0 hinv) s' h'
  exact key ops st hnd (fun s0 h0 => by
    rw [hfind] at h0
    injection h0 with h1
    rw [← h1]
    exact hset)

/-- C7 witness: over a concrete lifetime (pause, success-result
invocation iteration, archive) the sample session's runtime id "c1" is
still in place. -/
theorem c7_witness :
    ∃ s', findSession (applyOps sampleState sampleOps).registry "s1" =
        some s' ∧ s'.claudeSessionId = some "c1" := by
  refine ⟨_, rfl, ?_⟩
  exact c7_claudeSessionId_write_once sampleOps sampleState "s1" "c1"
    sampleSession (by decide) (by decide) (by rfl) (by rfl) _ (by rfl)

/-- C8: the cost and tokensUsed accumulators never decrease over any
sequence of lifecycle operations and handled runtime messages (assuming
the runtime reports non-negative costs), and they change only when a
result message is handled: tokensUsed in fact never changes at all, and
cost is unchanged whenever no operation of the sequence handles a result
message for the session. -/
theorem c8_cost_tokens_monotone (ops : List Op) (st : MgrState)
    (sid : String) (s : Session)
    (hnd : (st.registry.map Prod.fst).Nodup)
    (hfind : findSession st.registry sid = some s)
    (hc : ∀ op ∈ ops, opCostNonneg op) :
    ∀ s', findSession (applyOps st ops).registry sid = some s' →
      s.cost ≤ s'.cost ∧ s'.tokensUsed = s.tokensUsed ∧
      ((∀ op ∈ ops, ¬ opIsResultFor sid op) → s'.cost = s.cost) := by
  have key : ∀ (l : List Op) (st0 : MgrState) (s0 : Session),
      (st0.registry.map Prod.fst).Nodup →
      findSession st0.registry sid = some s0 →
      (∀ op ∈ l, opCostNonneg op) →
      ∀ s', findSession (List.foldl applyOp st0 l).registry sid = some s' →
        s0.cost ≤ s'.cost ∧ s'.tokensUsed = s0.tokensUsed ∧
        ((∀ op ∈ l, ¬ opIsResultFor sid op) → s'.cost = s0.cost) := by
    intro l
    induction l with
    | nil =>
      intro st0 s0 _ hfind0 _ s' h'
      simp only [List.foldl_nil] at h'
      rw [hfind0] at h'
      injection h' with h1
      subst h1
      exact ⟨le_refl _, rfl, fun _ => rfl⟩
    | cons op rest ih =>
      intro st0 s0 hnd0 hfind0 hc0 s' h'
      simp only [List.foldl_cons] at h'
      cases h1 : findSession (applyOp st0 op).registry sid with
      | none =>
        rw [applyOps_find_none (applyOp st0 op) sid rest h1] at h'
        cases h'
      | some s1 =>
        have hstep := applyOp_cost st0 sid op s0 hnd0 hfind0
          (hc0 op (List.mem_cons_self _ _)) s1 h1
        have hrest := ih (applyOp st0 op) s1 (applyOp_nodup st0 op hnd0) h1
          (fun o ho => hc0 o (List.mem_cons_of_mem _ ho)) s' h'
        refine ⟨le_trans hstep.1 hrest.1, hrest.2.1.trans hstep.2.1, ?_⟩
        intro hno
        rw [hrest.2.2 (fun o ho => hno o (List.mem_cons_of_mem _ ho)),
          hstep.2.2 (hno op (List.mem_cons_self _ _))]
  exact key ops st s hnd hfind hc

/-- C8 witness: over the concrete lifetime the sample session's cost only
grows (by the success result's 0.02) and tokensUsed is untouched. -/
theorem c8_witness :
    ∃ s', findSession (applyOps sampleState sampleOps).registry "s1" =
        some s' ∧ sampleSession.cost ≤ s'.cost ∧
      s'.tokensUsed = sampleSession.tokensUsed := by
  refine ⟨_, rfl, ?_⟩
  have h := c8_cost_tokens_monotone sampleOps sampleState "s1" sampleSession
    (by decide) (by rfl)
    (by
      intro op hop
      fin_cases hop <;>
        · simp [opCostNonneg, msgCostNonneg, successMsg]
          try norm_num)
    _ (by rfl)
  exact ⟨h.1, h.2.1⟩

end AgentMgr
